import Mathlib

/-!
Shallow embedding of the WebRTC media-optimization rate controller
(modules/video_coding/media_optimization.cc) and proofs about its
frame-rate estimator, target-rate capping, reset and encoded-data paths.

Modelling conventions:
* machine integers become Nat/Int (int32_t max_bit_rate -> Int,
  uint32_t -> Nat, int64_t timestamps -> Int);
* the float fields (incoming_frame_rate_, user_frame_rate_) become exact
  rationals;
* the FrameDropper collaborator is external opaque state: its calls are
  modelled as emitted events where a claim needs them (UpdateWithEncodedData)
  and elided otherwise, since it holds no controller state;
* the clock is passed explicitly as the current time in milliseconds.
-/

namespace MediaOpt

/-- History capacity. Modelled from the spec: the constant lives in the header
media_optimization.h, which is not part of the given sources; the spec sizes
the history "to hold several seconds of frames at typical capture rates", so we
fix it at 90 entries (3 s at 30 fps). -/
def kFrameCountHistorySize : Nat := 90

/-- Window length. Modelled from the spec: the header constant is not in the
given sources; both the spec and the code comment ("Don't use data older than
2 s") fix it at 2000 ms. -/
def kFrameHistoryWinMs : Int := 2000

/-- Modelled from the spec: VCM_OK is the success status code defined outside
the given sources ("Always succeeds"); its concrete value is irrelevant, we
use 0. -/
def VCM_OK : Int := 0

/-- Frame type carried by an EncodedImage (_frameType); only "key or not"
matters to this component. -/
inductive VideoFrameType where
  | kVideoFrameKey
  | kVideoFrameDelta
deriving DecidableEq

/-- The part of EncodedImage read by UpdateWithEncodedData: _length and
_frameType. -/
structure EncodedImage where
  length : Nat
  frameType : VideoFrameType
deriving DecidableEq

/-- One call into the external FrameDropper collaborator. -/
inductive DropperCall where
  | reset
  | setRates (bitrateKbps : ℚ) (frameRateHz : ℚ)
  | fill (sizeBytes : Nat) (deltaFrame : Bool)
  | leak (bytesPerSecond : Nat)
  | enable (e : Bool)
deriving DecidableEq

/-- Controller state: the member fields of MediaOptimization (the clock and
the opaque FrameDropper are external).  incomingFrameTimes is the array
incoming_frame_times_[kFrameCountHistorySize], newest first. -/
structure MediaOptState where
  maxBitRate : Int
  userFrameRate : ℚ
  videoTargetBitrate : Nat
  incomingFrameRate : ℚ
  incomingFrameTimes : List Int

/-- Constructor: all counters zero, history memset to -1. -/
def initState : MediaOptState :=
  { maxBitRate := 0
    userFrameRate := 0
    videoTargetBitrate := 0
    incomingFrameRate := 0
    incomingFrameTimes := List.replicate kFrameCountHistorySize (-1) }

/-- The scan loop of ProcessIncomingFrameRate: num runs from 1 while
num < kFrameCountHistorySize - 1, breaking at the first entry that is <= 0 or
strictly older than the window; nr_of_frames counts the entries scanned before
the break.  Equivalently: the length of the maximal prefix of entries 1..88
satisfying (0 < t && now - t <= kFrameHistoryWinMs). -/
def scanCount (l : List Int) (now : Int) : Nat :=
  (((l.drop 1).take (kFrameCountHistorySize - 2)).takeWhile
    (fun t => decide (0 < t) && decide (now - t ≤ kFrameHistoryWinMs))).length

/-- MediaOptimization::ProcessIncomingFrameRate.  When the scan counted at
least one entry (num > 1), recompute incoming_frame_rate_ from
diff = incoming_frame_times_[0] - incoming_frame_times_[num - 1]:
0 when diff <= 0, nr_of_frames * 1000 / diff otherwise.  When the scan counted
nothing the field is left untouched. -/
def processIncomingFrameRate (s : MediaOptState) (now : Int) : MediaOptState :=
  let n := scanCount s.incomingFrameTimes now
  if n = 0 then s
  else
    let diff : Int := s.incomingFrameTimes.getD 0 0 - s.incomingFrameTimes.getD n 0
    { s with incomingFrameRate :=
        if 0 < diff then ((n : ℚ) * 1000) / (diff : ℚ) else 0 }

/-- The history update of MediaOptimization::UpdateIncomingFrameRate: when
incoming_frame_times_[0] == 0 the shift loop is skipped and slot 0 is
overwritten; otherwise every entry moves one slot toward the oldest end (the
oldest is discarded) and now is written at slot 0. -/
def updateTimes (l : List Int) (now : Int) : List Int :=
  if l.getD 0 0 = 0 then l.set 0 now
  else now :: l.take (kFrameCountHistorySize - 1)

/-- MediaOptimization::UpdateIncomingFrameRate at clock time now: record the
arrival, then recompute the estimate. -/
def updateIncomingFrameRate (s : MediaOptState) (now : Int) : MediaOptState :=
  processIncomingFrameRate
    { s with incomingFrameTimes := updateTimes s.incomingFrameTimes now } now

/-- MediaOptimization::InputFrameRateInternal at clock time now: recompute the
estimate, then return uint32(min(uint32-max, incoming_frame_rate_ + 0.5)). -/
def inputFrameRateInternal (s : MediaOptState) (now : Int) : Nat :=
  (⌊min ((4294967295 : ℚ)) ((processIncomingFrameRate s now).incomingFrameRate + 1/2)⌋).toNat

/-- MediaOptimization::SetEncodingDataInternal: stores max_bit_rate_,
video_target_bitrate_ and user_frame_rate_ (the FrameDropper reset and
SetRates calls touch only external collaborator state). -/
def setEncodingDataInternal (s : MediaOptState) (maxBitRate : Int)
    (frameRate : Nat) (targetBitrate : Nat) : MediaOptState :=
  { s with maxBitRate := maxBitRate
           videoTargetBitrate := targetBitrate
           userFrameRate := (frameRate : ℚ) }

/-- MediaOptimization::SetEncodingData: note the argument swap into the
internal helper (max, target, frame_rate) -> (max, frame_rate, target). -/
def setEncodingData (s : MediaOptState) (maxBitRate : Int)
    (targetBitrate : Nat) (frameRate : Nat) : MediaOptState :=
  setEncodingDataInternal s maxBitRate frameRate targetBitrate

/-- MediaOptimization::SetTargetRates: store the requested target, cap it at
max_bit_rate_ when the latter is positive, and return the stored value (the
FrameDropper SetRates call touches only external collaborator state). -/
def setTargetRates (s : MediaOptState) (targetBitrate : Nat) : Nat × MediaOptState :=
  let v : Nat :=
    if 0 < s.maxBitRate ∧ s.maxBitRate < (targetBitrate : Int) then s.maxBitRate.toNat
    else targetBitrate
  (v, { s with videoTargetBitrate := v })

/-- MediaOptimization::Reset: SetEncodingDataInternal(0, 0, 0), history memset
to -1, estimate zeroed, target and user frame rate zeroed (the FrameDropper
Reset/SetRates(0,0) calls touch only external collaborator state). -/
def reset (s : MediaOptState) : MediaOptState :=
  let s1 := setEncodingDataInternal s 0 0 0
  { s1 with incomingFrameTimes := List.replicate kFrameCountHistorySize (-1)
            incomingFrameRate := 0
            videoTargetBitrate := 0
            userFrameRate := 0 }

/-- MediaOptimization::UpdateWithEncodedData: when _length > 0, one
FrameDropper Fill(_length, _frameType != kVideoFrameKey) call is emitted;
otherwise nothing happens.  Returns VCM_OK in every case.  The controller
state is returned unchanged together with the emitted collaborator calls. -/
def updateWithEncodedData (s : MediaOptState) (img : EncodedImage) :
    MediaOptState × List DropperCall × Int :=
  if 0 < img.length then
    (s, [DropperCall.fill img.length
          (decide (img.frameType ≠ VideoFrameType.kVideoFrameKey))], VCM_OK)
  else (s, [], VCM_OK)

/-- A sequence of arrival events (DropFrame step 1) at the given clock
times. -/
def runArrivals (s : MediaOptState) (ts : List Int) : MediaOptState :=
  ts.foldl updateIncomingFrameRate s

/-- Clock times t0, t0 + T, ..., t0 + (n-1)T. -/
def arrivalTimes (t0 T : Int) (n : Nat) : List Int :=
  (List.range n).map (fun (k : Nat) => t0 + (k : Int) * T)

/-- The history after n arrivals spaced T apart ending at t0 + (n-1)T:
slot k holds t0 + (n-1-k)T while that arrival happened, -1 beyond. -/
def histList (t0 T : Int) (n : Nat) : List Int :=
  (List.range kFrameCountHistorySize).map
    (fun k => if k < n then t0 + ((n : Int) - 1 - (k : Int)) * T else -1)

/-! ### Basic lemmas about the embedding -/

/-- Recomputing the estimate never touches the history. -/
lemma processIncomingFrameRate_times (s : MediaOptState) (now : Int) :
    (processIncomingFrameRate s now).incomingFrameTimes = s.incomingFrameTimes := by
  unfold processIncomingFrameRate
  dsimp only
  split <;> rfl

/-- An arrival event changes the history exactly by updateTimes. -/
lemma updateIncomingFrameRate_times (s : MediaOptState) (now : Int) :
    (updateIncomingFrameRate s now).incomingFrameTimes
      = updateTimes s.incomingFrameTimes now := by
  unfold updateIncomingFrameRate
  rw [processIncomingFrameRate_times]

/-- The scan stops immediately when the entry after the newest is absent
(<= 0) or strictly older than the window. -/
lemma scanCount_eq_zero (l : List Int) (now : Int)
    (h : l.getD 1 0 ≤ 0 ∨ kFrameHistoryWinMs < now - l.getD 1 0) :
    scanCount l now = 0 := by
  rcases l with _ | ⟨a, rest⟩
  · rfl
  rcases rest with _ | ⟨b, r⟩
  · rfl
  · have hb : (a :: b :: r).getD 1 0 = b := rfl
    rw [hb] at h
    unfold scanCount
    have htake : ((a :: b :: r).drop 1).take (kFrameCountHistorySize - 2)
        = b :: r.take (kFrameCountHistorySize - 3) := rfl
    rw [htake]
    have hpred : (decide (0 < b) && decide (now - b ≤ kFrameHistoryWinMs)) = false := by
      rcases h with h | h
      · have : ¬ (0 < b) := by omega
        simp [this]
      · have : ¬ (now - b ≤ kFrameHistoryWinMs) := by omega
        simp [this]
    simp [List.takeWhile_cons]
    omega

/-- When the scan counts nothing the whole state is unchanged. -/
lemma processIncomingFrameRate_of_scan_zero (s : MediaOptState) (now : Int)
    (h : scanCount s.incomingFrameTimes now = 0) :
    processIncomingFrameRate s now = s := by
  unfold processIncomingFrameRate
  simp [h]

/-- When the scan counts n >= 1 entries and diff > 0, the recomputed estimate
is n * 1000 / diff. -/
lemma processIncomingFrameRate_rate_pos (s : MediaOptState) (now : Int) (n : Nat)
    (hn : scanCount s.incomingFrameTimes now = n) (h0 : n ≠ 0)
    (hd : 0 < s.incomingFrameTimes.getD 0 0 - s.incomingFrameTimes.getD n 0) :
    (processIncomingFrameRate s now).incomingFrameRate
      = ((n : ℚ) * 1000)
        / ((s.incomingFrameTimes.getD 0 0 - s.incomingFrameTimes.getD n 0 : Int) : ℚ) := by
  unfold processIncomingFrameRate
  simp only [hn, if_neg h0, if_pos hd]

/-- An arrival whose recompute counts nothing leaves the estimate field
untouched. -/
lemma updateIncomingFrameRate_rate_of_scan_zero (s : MediaOptState) (now : Int)
    (h : scanCount (updateTimes s.incomingFrameTimes now) now = 0) :
    (updateIncomingFrameRate s now).incomingFrameRate = s.incomingFrameRate := by
  unfold updateIncomingFrameRate
  rw [processIncomingFrameRate_of_scan_zero _ _ h]

/-- InputFrameRateInternal unfolded on the recomputed estimate. -/
lemma inputFrameRateInternal_eq (s : MediaOptState) (now : Int) :
    inputFrameRateInternal s now
      = (⌊min ((4294967295 : ℚ))
          ((processIncomingFrameRate s now).incomingFrameRate + 1/2)⌋).toNat := rfl

/-- Saturated half-up rounding of a rational that is at most the cap. -/
lemma floor_min_cap (r : ℚ) (hr : r + 1/2 ≤ 4294967295) :
    ⌊min ((4294967295 : ℚ)) (r + 1/2)⌋ = ⌊r + 1/2⌋ := by
  rw [min_eq_right hr]

/-- Closed form of the recompute when the scan counts something. -/
lemma processIncomingFrameRate_eq_of_ne (s : MediaOptState) (now : Int)
    (h : scanCount s.incomingFrameTimes now ≠ 0) :
    processIncomingFrameRate s now
      = { s with incomingFrameRate :=
            if 0 < s.incomingFrameTimes.getD 0 0
                  - s.incomingFrameTimes.getD (scanCount s.incomingFrameTimes now) 0
            then ((scanCount s.incomingFrameTimes now : ℚ) * 1000)
                 / ((s.incomingFrameTimes.getD 0 0
                      - s.incomingFrameTimes.getD (scanCount s.incomingFrameTimes now) 0 : Int) : ℚ)
            else 0 } := by
  unfold processIncomingFrameRate
  simp only [if_neg h]

/-- Recomputing twice at the same clock time is the same as recomputing
once: the recompute reads only the (untouched) history. -/
lemma processIncomingFrameRate_idem (s : MediaOptState) (now : Int) :
    processIncomingFrameRate (processIncomingFrameRate s now) now
      = processIncomingFrameRate s now := by
  by_cases h : scanCount s.incomingFrameTimes now = 0
  · rw [processIncomingFrameRate_of_scan_zero s now h,
        processIncomingFrameRate_of_scan_zero s now h]
  · rw [processIncomingFrameRate_eq_of_ne s now h]
    exact processIncomingFrameRate_eq_of_ne _ now h

/-- A plain query right after a recompute at the same clock time returns the
same value as querying the original state. -/
lemma inputFrameRateInternal_process (s : MediaOptState) (now : Int) :
    inputFrameRateInternal (processIncomingFrameRate s now) now
      = inputFrameRateInternal s now := by
  rw [inputFrameRateInternal_eq, inputFrameRateInternal_eq,
      processIncomingFrameRate_idem]

/-- Evaluating the saturated half-up rounding at a value below the cap. -/
lemma toNat_floor_min_eq (q : ℚ) (m : Nat) (h1 : (m : ℚ) ≤ q + 1/2)
    (h2 : q + 1/2 < (m : ℚ) + 1) (h3 : q + 1/2 ≤ 4294967295) :
    (⌊min ((4294967295 : ℚ)) (q + 1/2)⌋).toNat = m := by
  rw [min_eq_right h3]
  have hf : ⌊q + 1/2⌋ = (m : Int) := by
    rw [Int.floor_eq_iff]
    constructor
    · exact_mod_cast h1
    · push_cast
      exact h2
  rw [hf]
  simp

/-! ### Infrastructure for the evenly-spaced-arrivals analysis (claim C2) -/

lemma arrivalTimes_succ (t0 T : Int) (n : Nat) :
    arrivalTimes t0 T (n + 1) = arrivalTimes t0 T n ++ [t0 + (n : Int) * T] := by
  unfold arrivalTimes
  rw [List.range_succ, List.map_append]
  rfl

lemma runArrivals_append (s : MediaOptState) (ts : List Int) (t : Int) :
    runArrivals s (ts ++ [t]) = updateIncomingFrameRate (runArrivals s ts) t := by
  unfold runArrivals
  rw [List.foldl_append]
  rfl

lemma runArrivals_cons (s : MediaOptState) (t : Int) (ts : List Int) :
    runArrivals s (t :: ts) = runArrivals (updateIncomingFrameRate s t) ts := rfl

lemma histList_cons (t0 T : Int) (n : Nat) :
    histList t0 T n
      = (if 0 < n then t0 + ((n : Int) - 1) * T else -1)
        :: (List.range (kFrameCountHistorySize - 1)).map
            (fun k => if k + 1 < n then t0 + ((n : Int) - 1 - ((k : Int) + 1)) * T else -1) := by
  unfold histList
  rw [show kFrameCountHistorySize = (kFrameCountHistorySize - 1) + 1 from rfl,
      List.range_succ_eq_map, List.map_cons, List.map_map]
  congr 1
  split_ifs <;> (push_cast; try ring_nf)

lemma histList_length (t0 T : Int) (n : Nat) :
    (histList t0 T n).length = kFrameCountHistorySize := by
  simp [histList]

lemma histList_getD (t0 T : Int) (n k : Nat) (hk : k < kFrameCountHistorySize) :
    (histList t0 T n).getD k 0
      = if k < n then t0 + ((n : Int) - 1 - (k : Int)) * T else -1 := by
  unfold histList
  rw [List.getD_eq_getElem?_getD, List.getElem?_map, List.getElem?_range hk]
  rfl

lemma histList_take (t0 T : Int) (n : Nat) :
    (histList t0 T n).take (kFrameCountHistorySize - 1)
      = (List.range (kFrameCountHistorySize - 1)).map
          (fun k => if k < n then t0 + ((n : Int) - 1 - (k : Int)) * T else -1) := by
  unfold histList
  rw [← List.map_take, List.take_range]
  rfl

lemma histList_zero (t0 T : Int) :
    histList t0 T 0 = List.replicate kFrameCountHistorySize (-1) := by
  unfold histList
  rw [List.eq_replicate_iff]
  refine ⟨by simp, ?_⟩
  intro b hb
  simp only [List.mem_map, List.mem_range] at hb
  obtain ⟨k, _, hk⟩ := hb
  rw [if_neg (by omega)] at hk
  exact hk.symm

/-- The arrival that extends an evenly-spaced history by one event. -/
lemma updateTimes_histList (t0 : Int) (T : Nat) (n : Nat) (ht0 : 0 < t0) :
    updateTimes (histList t0 (T : Int) n) (t0 + (n : Int) * T)
      = histList t0 (T : Int) (n + 1) := by
  have hne : (histList t0 (T : Int) n).getD 0 0 ≠ 0 := by
    rw [histList_getD t0 _ n 0 (by norm_num [kFrameCountHistorySize])]
    split_ifs with h
    · have h1 : (0 : ℤ) ≤ ((n : Int) - 1 - ((0 : Nat) : Int)) * (T : Int) :=
        mul_nonneg (by push_cast; omega) (by positivity)
      intro hc
      linarith
    · norm_num
  unfold updateTimes
  rw [if_neg hne, histList_take, histList_cons t0 (T : Int) (n + 1)]
  congr 1
  · rw [if_pos (Nat.succ_pos n)]
    push_cast
    ring
  · apply List.map_congr_left
    intro k hk
    split_ifs with h1 h2
    · push_cast
      ring
    · exact absurd (by omega : k + 1 < n + 1) h2
    · exact absurd (by omega : k < n) h1
    · rfl

/-- After n arrivals at times t0, t0+T, ..., t0+(n-1)T (with t0 > 0) the
history is exactly histList t0 T n. -/
lemma runArrivals_histList (t0 : Int) (T : Nat) (ht0 : 0 < t0) (n : Nat) :
    (runArrivals initState (arrivalTimes t0 (T : Int) n)).incomingFrameTimes
      = histList t0 (T : Int) n := by
  induction n with
  | zero =>
    show initState.incomingFrameTimes = histList t0 (T : Int) 0
    rw [histList_zero]
    rfl
  | succ m ih =>
    rw [arrivalTimes_succ, runArrivals_append, updateIncomingFrameRate_times, ih]
    exact updateTimes_histList t0 T m ht0

/-- The length of a takeWhile prefix when the predicate holds exactly on the
first c positions. -/
lemma length_takeWhile_eq {α : Type} (p : α → Bool) :
    ∀ (l : List α) (c : Nat), c ≤ l.length →
      (∀ j (hj : j < l.length), (p (l.get ⟨j, hj⟩) = true ↔ j < c)) →
      (l.takeWhile p).length = c := by
  intro l
  induction l with
  | nil =>
    intro c hc _
    simp at hc
    simp [hc]
  | cons a tl ih =>
    intro c hc h
    rcases c with _ | c
    · have hpa : p a = false := by
        cases hpa : p a
        · rfl
        · exact absurd ((h 0 (Nat.succ_pos _)).mp hpa) (by omega)
      simp [List.takeWhile_cons, hpa]
    · have hpa : p a = true := (h 0 (Nat.succ_pos _)).mpr (Nat.succ_pos c)
      simp only [List.takeWhile_cons, hpa, if_true, List.length_cons]
      rw [ih c (by simpa using hc) ?_]
      intro j hj
      have h2 := h (j + 1) (Nat.succ_lt_succ hj)
      have hg : (a :: tl).get ⟨j + 1, Nat.succ_lt_succ hj⟩ = tl.get ⟨j, hj⟩ := rfl
      rw [hg, Nat.succ_lt_succ_iff] at h2
      exact h2

/-- The slice of the history examined by the scan loop, for a history built
as a map over range. -/
lemma scan_slice_map_range {α : Type} (f : Nat → α) :
    (((List.range kFrameCountHistorySize).map f).drop 1).take (kFrameCountHistorySize - 2)
      = (List.range (kFrameCountHistorySize - 2)).map (fun j => f (j + 1)) := by
  rw [show kFrameCountHistorySize = (kFrameCountHistorySize - 1) + 1 from rfl,
      List.range_succ_eq_map, List.map_cons, List.map_map]
  have hdrop : (f 0 :: (List.range (kFrameCountHistorySize - 1)).map (f ∘ Nat.succ)).drop 1
      = (List.range (kFrameCountHistorySize - 1)).map (f ∘ Nat.succ) := rfl
  rw [hdrop, ← List.map_take, List.take_range]
  rfl

/-- The scan count on an evenly spaced history queried at the newest arrival
time: the window cap, the number of recorded arrivals and the loop bound each
limit the count. -/
lemma scanCount_histList (t0 : Int) (T n : Nat) (ht0 : 0 < t0) (hT : 1 ≤ T)
    (hn : 1 ≤ n) :
    scanCount (histList t0 (T : Int) n) (t0 + ((n : Int) - 1) * (T : Int))
      = min (n - 1) (min (2000 / T) (kFrameCountHistorySize - 2)) := by
  unfold scanCount histList
  rw [scan_slice_map_range]
  apply length_takeWhile_eq
  · simp only [List.length_map, List.length_range]
    omega
  · intro j hj
    have hj88 : j < kFrameCountHistorySize - 2 := by simpa using hj
    have hel : ((List.range (kFrameCountHistorySize - 2)).map
        (fun j => if j + 1 < n then t0 + ((n : Int) - 1 - ((j + 1 : Nat) : Int)) * T else -1)).get
          ⟨j, hj⟩
        = if j + 1 < n then t0 + ((n : Int) - 1 - ((j + 1 : Nat) : Int)) * T else -1 := by
      simp
    rw [hel]
    by_cases hjn : j + 1 < n
    · rw [if_pos hjn]
      have hepos : (0 : ℤ) < t0 + ((n : Int) - 1 - ((j + 1 : Nat) : Int)) * T := by
        have h1 : (0 : ℤ) ≤ ((n : Int) - 1 - ((j + 1 : Nat) : Int)) * T :=
          mul_nonneg (by push_cast; omega) (by positivity)
        linarith
      have hsub : (t0 + ((n : Int) - 1) * (T : Int))
            - (t0 + ((n : Int) - 1 - ((j + 1 : Nat) : Int)) * T)
          = ((j + 1 : Nat) : Int) * T := by ring
      simp only [Bool.and_eq_true, decide_eq_true_eq, hsub]
      constructor
      · rintro ⟨-, h2⟩
        rw [kFrameHistoryWinMs] at h2
        have h3 : (j + 1) * T ≤ 2000 := by exact_mod_cast h2
        have h4 : j + 1 ≤ 2000 / T := (Nat.le_div_iff_mul_le (by omega)).mpr h3
        omega
      · intro hcj
        refine ⟨hepos, ?_⟩
        rw [kFrameHistoryWinMs]
        have h4 : j + 1 ≤ 2000 / T := by omega
        have h3 : (j + 1) * T ≤ 2000 := (Nat.le_div_iff_mul_le (by omega)).mp h4
        exact_mod_cast h3
    · rw [if_neg hjn]
      simp only [Bool.and_eq_true, decide_eq_true_eq]
      constructor
      · rintro ⟨h0, -⟩
        norm_num at h0
      · intro hcj
        exact absurd (by omega : j + 1 < n) hjn

/-- The estimator on evenly spaced arrivals: whatever portion of the history
the window and the capacity caps leave usable, the quotient
count * 1000 / (count * T) collapses to exactly 1000 / T. -/
lemma inputFrameRate_evenly_spaced (t0 : Int) (T n : Nat) (ht0 : 0 < t0)
    (hT : 1 ≤ T) (hT2 : T ≤ 1999) (hn : 2 ≤ n) :
    inputFrameRateInternal (runArrivals initState (arrivalTimes t0 (T : Int) n))
        (t0 + ((n : Int) - 1) * (T : Int))
      = (⌊(1000 : ℚ) / (T : ℚ) + 1/2⌋).toNat := by
  have hK : kFrameCountHistorySize = 90 := rfl
  set c := min (n - 1) (min (2000 / T) (kFrameCountHistorySize - 2)) with hc
  have hdiv1 : 1 ≤ 2000 / T := (Nat.le_div_iff_mul_le (by omega)).mpr (by omega)
  have hc1 : 1 ≤ c := by omega
  have hck : c < kFrameCountHistorySize := by omega
  have htimes := runArrivals_histList t0 T ht0 n
  have hscan : scanCount
      (runArrivals initState (arrivalTimes t0 (T : Int) n)).incomingFrameTimes
      (t0 + ((n : Int) - 1) * (T : Int)) = c := by
    rw [htimes]
    exact scanCount_histList t0 T n ht0 hT (by omega)
  have hgd0 : (histList t0 (T : Int) n).getD 0 0 = t0 + ((n : Int) - 1) * T := by
    rw [histList_getD _ _ _ _ (by omega), if_pos (by omega)]
    push_cast
    ring
  have hgdc : (histList t0 (T : Int) n).getD c 0
      = t0 + ((n : Int) - 1 - (c : Int)) * T := by
    rw [histList_getD _ _ _ _ hck, if_pos (by omega)]
  have hdiff : (histList t0 (T : Int) n).getD 0 0 - (histList t0 (T : Int) n).getD c 0
      = (c : Int) * T := by
    rw [hgd0, hgdc]
    ring
  have hdpos : (0 : Int) < (c : Int) * T := by
    have h1 : 0 < c * T := Nat.mul_pos (by omega) (by omega)
    exact_mod_cast h1
  rw [inputFrameRateInternal_eq,
      processIncomingFrameRate_rate_pos _ _ c hscan (by omega)
        (by rw [htimes, hdiff]; exact hdpos),
      htimes, hdiff]
  have hrate : ((c : ℚ) * 1000) / (((c : Int) * T : Int) : ℚ) = (1000 : ℚ) / (T : ℚ) := by
    push_cast
    rw [mul_div_mul_left 1000 ((T : ℚ)) (Nat.cast_ne_zero.mpr (by omega))]
  rw [hrate, floor_min_cap]
  have h1000 : (1000 : ℚ) / (T : ℚ) ≤ 1000 :=
    div_le_self (by norm_num) (by exact_mod_cast hT)
  linarith

/-! ### Claim C2 -/

set_option maxHeartbeats 1600000 in
/-- Claim C2: for every exact arrival spacing T ms with 0 < T < 2000
(necessarily a whole number of milliseconds on the integer-millisecond
clock), feeding at least two arrival events spaced exactly T apart, starting
at any positive time, makes InputFrameRate() queried at the last arrival
return round-half-up(1000 / T); in particular the spec's Scenario B —
arrivals at t = 0, 33, 66, ..., 990 then a query at t = 990 — returns 30. -/
theorem claim2_estimator_convergence :
    (∀ (t0 : Int) (T n : Nat), 0 < t0 → 1 ≤ T → T ≤ 1999 → 2 ≤ n →
      inputFrameRateInternal (runArrivals initState (arrivalTimes t0 (T : Int) n))
          (t0 + ((n : Int) - 1) * (T : Int))
        = (⌊(1000 : ℚ) / (T : ℚ) + 1/2⌋).toNat) ∧
    inputFrameRateInternal (runArrivals initState (arrivalTimes 0 33 31)) 990 = 30 := by
  refine ⟨fun t0 T n ht0 hT hT2 hn =>
    inputFrameRate_evenly_spaced t0 T n ht0 hT hT2 hn, ?_⟩
  have hl : arrivalTimes 0 33 31
      = 0 :: 33 :: ((arrivalTimes 33 ((33 : Nat) : Int) 30).drop 1) := by decide
  have hl2 : arrivalTimes 33 ((33 : Nat) : Int) 30
      = 33 :: ((arrivalTimes 33 ((33 : Nat) : Int) 30).drop 1) := by decide
  have hstep : updateIncomingFrameRate (updateIncomingFrameRate initState 0) 33
      = updateIncomingFrameRate initState 33 := rfl
  have hmerge : runArrivals initState (arrivalTimes 0 33 31)
      = runArrivals initState (arrivalTimes 33 ((33 : Nat) : Int) 30) := by
    rw [hl, runArrivals_cons, runArrivals_cons, hstep, ← runArrivals_cons, ← hl2]
  have hg := inputFrameRate_evenly_spaced 33 33 30 (by norm_num) (by norm_num)
    (by norm_num) (by norm_num)
  have hnow : ((33 : Int) + (((30 : Nat) : Int) - 1) * ((33 : Nat) : Int)) = 990 := by
    norm_num
  rw [hnow] at hg
  rw [hmerge, hg]
  have hfl : ⌊(1000 : ℚ) / ((33 : Nat) : ℚ) + 1/2⌋ = 30 := by
    have hcast : ((33 : Nat) : ℚ) = 33 := by norm_num
    rw [hcast, Int.floor_eq_iff]
    constructor <;> norm_num
  rw [hfl]
  rfl

/-- Witness for C2 at t0 = 1, T = 33, n = 31. -/
theorem claim2_witness :
    inputFrameRateInternal (runArrivals initState (arrivalTimes 1 ((33 : Nat) : Int) 31))
        ((1 : Int) + (((31 : Nat) : Int) - 1) * ((33 : Nat) : Int))
      = (⌊(1000 : ℚ) / ((33 : Nat) : ℚ) + 1/2⌋).toNat :=
  claim2_estimator_convergence.1 1 33 31 (by norm_num) (by norm_num) (by norm_num)
    (by norm_num)

/-! ### Claim C1 -/

/-- Claim C1: for every maxBitrateBps > 0 and every targetBitrateBps,
SetTargetRates(targetBitrateBps) returns min(targetBitrateBps, maxBitrateBps)
and stores that clamped value as the target; when maxBitrateBps = 0 it returns
targetBitrateBps unchanged. -/
theorem claim1_setTargetRates_caps (s : MediaOptState) (target : Nat) :
    (0 < s.maxBitRate →
      (setTargetRates s target).1 = min target s.maxBitRate.toNat ∧
      (setTargetRates s target).2.videoTargetBitrate = min target s.maxBitRate.toNat) ∧
    (s.maxBitRate = 0 → (setTargetRates s target).1 = target) := by
  have h1 : (setTargetRates s target).1
      = if 0 < s.maxBitRate ∧ s.maxBitRate < (target : Int)
        then s.maxBitRate.toNat else target := rfl
  have h2 : (setTargetRates s target).2.videoTargetBitrate
      = if 0 < s.maxBitRate ∧ s.maxBitRate < (target : Int)
        then s.maxBitRate.toNat else target := rfl
  refine ⟨fun hpos => ⟨?_, ?_⟩, fun h0 => ?_⟩
  · rw [h1]; split_ifs with hc <;> omega
  · rw [h2]; split_ifs with hc <;> omega
  · rw [h1]; split_ifs with hc <;> omega

/-- Witness for C1 at the spec's Scenario A inputs. -/
theorem claim1_witness :
    (setTargetRates ⟨400000, 0, 0, 0, []⟩ 600000).1 = min 600000 ((400000 : Int)).toNat ∧
    (setTargetRates ⟨0, 0, 0, 0, []⟩ 600000).1 = 600000 :=
  ⟨((claim1_setTargetRates_caps ⟨400000, 0, 0, 0, []⟩ 600000).1 (by decide)).1,
   (claim1_setTargetRates_caps ⟨0, 0, 0, 0, []⟩ 600000).2 (by decide)⟩

/-! ### Claim C3 -/

/-- Counterexample to claim C3: filling the history at 100 fps (arrivals at
t = 10 and t = 20), then a gap of 2980 ms > 2000 ms followed by a single new
arrival at t = 3000.  The claim says the estimate becomes 0 and
InputFrameRate() returns 0; in fact the estimate stays at its previous
value 100 and InputFrameRate() returns 100. -/
theorem claim3_counterexample :
    (runArrivals initState [10, 20, 3000]).incomingFrameRate = 100 ∧
    inputFrameRateInternal (runArrivals initState [10, 20, 3000]) 3000 = 100 := by
  have hs2 : runArrivals initState [10, 20]
      = processIncomingFrameRate ⟨0, 0, 0, 0, 20 :: 10 :: List.replicate 88 (-1)⟩ 20 := rfl
  have hr2 : (runArrivals initState [10, 20]).incomingFrameRate = 100 := by
    rw [hs2, processIncomingFrameRate_rate_pos _ 20 1 (by decide) (by decide) (by decide)]
    norm_num [show ((20 :: 10 :: List.replicate 88 (-1) : List Int)).getD 0 0 = 20 from rfl,
      show ((20 :: 10 :: List.replicate 88 (-1) : List Int)).getD 1 0 = 10 from rfl]
  have h3 : runArrivals initState [10, 20, 3000]
      = updateIncomingFrameRate (runArrivals initState [10, 20]) 3000 := rfl
  have hscan3 : scanCount
      (updateTimes (runArrivals initState [10, 20]).incomingFrameTimes 3000) 3000 = 0 := by
    rw [hs2, processIncomingFrameRate_times]
    decide
  have hr3 : (runArrivals initState [10, 20, 3000]).incomingFrameRate = 100 := by
    rw [h3, updateIncomingFrameRate_rate_of_scan_zero _ _ hscan3, hr2]
  refine ⟨hr3, ?_⟩
  have ht3 : (runArrivals initState [10, 20, 3000]).incomingFrameTimes
      = 3000 :: 20 :: 10 :: List.replicate 87 (-1) := by
    rw [h3, updateIncomingFrameRate_times, hs2, processIncomingFrameRate_times]
    decide
  have hscan4 : scanCount (runArrivals initState [10, 20, 3000]).incomingFrameTimes 3000 = 0 := by
    rw [ht3]
    decide
  rw [inputFrameRateInternal_eq, processIncomingFrameRate_of_scan_zero _ _ hscan4, hr3]
  exact toNat_floor_min_eq 100 100 (by norm_num) (by norm_num) (by norm_num)

/-- Claim C3 as amended: after a gap of more than 2000 ms since the newest
recorded (positive) arrival, a single new arrival leaves the stored estimate
exactly unchanged (the stale samples are merely excluded from the scan), and a
subsequent InputFrameRate() returns the previous estimate saturated-half-up
rounded, not 0. -/
theorem claim3_gap_leaves_estimate (s : MediaOptState) (t : Int)
    (h0 : 0 < s.incomingFrameTimes.getD 0 0)
    (hgap : kFrameHistoryWinMs < t - s.incomingFrameTimes.getD 0 0) :
    (updateIncomingFrameRate s t).incomingFrameRate = s.incomingFrameRate ∧
    inputFrameRateInternal (updateIncomingFrameRate s t) t
      = (⌊min ((4294967295 : ℚ)) (s.incomingFrameRate + 1/2)⌋).toNat := by
  have hne : s.incomingFrameTimes.getD 0 0 ≠ 0 := by omega
  have hup : updateTimes s.incomingFrameTimes t
      = t :: s.incomingFrameTimes.take (kFrameCountHistorySize - 1) := by
    unfold updateTimes
    rw [if_neg hne]
  have hgd : (t :: s.incomingFrameTimes.take (kFrameCountHistorySize - 1)).getD 1 0
      = s.incomingFrameTimes.getD 0 0 := by
    rcases hl : s.incomingFrameTimes with _ | ⟨a, l⟩
    · rw [hl] at h0
      simp at h0
    · rfl
  have hscan : scanCount (updateTimes s.incomingFrameTimes t) t = 0 := by
    rw [hup]
    apply scanCount_eq_zero
    right
    rw [hgd]
    omega
  refine ⟨updateIncomingFrameRate_rate_of_scan_zero s t hscan, ?_⟩
  have hupd : updateIncomingFrameRate s t
      = { s with incomingFrameTimes := updateTimes s.incomingFrameTimes t } := by
    unfold updateIncomingFrameRate
    exact processIncomingFrameRate_of_scan_zero _ _ hscan
  rw [hupd, inputFrameRateInternal_eq, processIncomingFrameRate_of_scan_zero _ _ hscan]

/-- Witness for the amended C3: history [20, 10], estimate 100, new arrival at
t = 3000 (gap 2980 ms). -/
theorem claim3_witness :
    (updateIncomingFrameRate ⟨0, 0, 0, 100, [20, 10]⟩ 3000).incomingFrameRate
      = (⟨0, 0, 0, 100, [20, 10]⟩ : MediaOptState).incomingFrameRate ∧
    inputFrameRateInternal (updateIncomingFrameRate ⟨0, 0, 0, 100, [20, 10]⟩ 3000) 3000
      = (⌊min ((4294967295 : ℚ))
          ((⟨0, 0, 0, 100, [20, 10]⟩ : MediaOptState).incomingFrameRate + 1/2)⌋).toNat :=
  claim3_gap_leaves_estimate ⟨0, 0, 0, 100, [20, 10]⟩ 3000 (by decide) (by decide)

/-! ### Claim C4 -/

/-- Counterexample to claim C4: arrivals at t = 1 and t = 2001.  At the
recompute for now = 2001 the second-newest entry has age exactly 2000 ms; the
claim says it is excluded (and the estimate would then stay 0), but the code
breaks only on entries strictly older than the window, so the entry is
counted: the estimate becomes 1000/2000 = 1/2 and InputFrameRate() returns 1. -/
theorem claim4_counterexample :
    (runArrivals initState [1, 2001]).incomingFrameRate = 1/2 ∧
    (runArrivals initState [1, 2001]).incomingFrameRate ≠ 0 ∧
    inputFrameRateInternal (runArrivals initState [1, 2001]) 2001 = 1 := by
  have hs : runArrivals initState [1, 2001]
      = processIncomingFrameRate ⟨0, 0, 0, 0, 2001 :: 1 :: List.replicate 88 (-1)⟩ 2001 := rfl
  have hgd0 : ((2001 :: 1 :: List.replicate 88 (-1) : List Int)).getD 0 0 = 2001 := rfl
  have hgd1 : ((2001 :: 1 :: List.replicate 88 (-1) : List Int)).getD 1 0 = 1 := rfl
  have hr : (runArrivals initState [1, 2001]).incomingFrameRate = 1/2 := by
    rw [hs, processIncomingFrameRate_rate_pos _ 2001 1 (by decide) (by decide) (by decide)]
    norm_num [hgd0, hgd1]
  refine ⟨hr, by rw [hr]; norm_num, ?_⟩
  rw [hs, inputFrameRateInternal_process, inputFrameRateInternal_eq,
      processIncomingFrameRate_rate_pos _ 2001 1 (by decide) (by decide) (by decide)]
  have hq : ((1 : Nat) : ℚ) * 1000
      / ((((2001 :: 1 :: List.replicate 88 (-1) : List Int)).getD 0 0
           - ((2001 :: 1 :: List.replicate 88 (-1) : List Int)).getD 1 0 : Int) : ℚ) = 1/2 := by
    norm_num [hgd0, hgd1]
  rw [hq]
  exact toNat_floor_min_eq (1/2) 1 (by norm_num) (by norm_num) (by norm_num)

/-- Claim C4 as amended: an entry whose age is exactly 2000 ms is included in
the count — the scan stops only at entries that are absent or strictly older
than the window. -/
theorem claim4_boundary_included (s : MediaOptState) (now : Int)
    (h1 : 0 < s.incomingFrameTimes.getD 1 0)
    (h2 : now - s.incomingFrameTimes.getD 1 0 = kFrameHistoryWinMs) :
    0 < scanCount s.incomingFrameTimes now := by
  rcases hl : s.incomingFrameTimes with _ | ⟨a, rest⟩
  · rw [hl] at h1
    simp at h1
  rcases rest with _ | ⟨b, r⟩
  · rw [hl] at h1
    simp [List.getD] at h1
  · rw [hl] at h1 h2
    have hb1 : ((a :: b :: r : List Int)).getD 1 0 = b := rfl
    rw [hb1] at h1 h2
    unfold scanCount
    have htake : ((a :: b :: r).drop 1).take (kFrameCountHistorySize - 2)
        = b :: r.take (kFrameCountHistorySize - 3) := rfl
    rw [htake]
    have hcond : 0 < b ∧ now ≤ kFrameHistoryWinMs + b := ⟨h1, by omega⟩
    simp [List.takeWhile_cons, hcond]

/-- Witness for the amended C4: history [2001, 1] queried at now = 2001; the
entry aged exactly 2000 ms is counted. -/
theorem claim4_witness :
    0 < scanCount (⟨0, 0, 0, 0, [2001, 1]⟩ : MediaOptState).incomingFrameTimes 2001 :=
  claim4_boundary_included ⟨0, 0, 0, 0, [2001, 1]⟩ 2001 (by decide) (by decide)

/-! ### Claim C5 -/

/-- Counterexample to claim C5: arrivals at t = 0 then t = 33.  After the
first arrival the history holds the legitimate timestamp 0; the claim says the
second arrival must shift it down, leaving [33, 0, ...].  The code skips the
shift exactly when slot 0 holds 0 (the empty-history sentinel is -1, not 0),
so the t = 0 sample is overwritten: the history is [33, -1, ...]. -/
theorem claim5_counterexample :
    (runArrivals initState [0, 33]).incomingFrameTimes.getD 0 7 = 33 ∧
    (runArrivals initState [0, 33]).incomingFrameTimes.getD 1 7 = -1 := by
  decide

/-- Claim C5 as amended: the shift is skipped exactly when slot 0 holds the
value 0 — whether that is a legitimate timestamp or not.  Since construction
and Reset fill the history with -1, the first-ever arrival does shift (moving
only sentinels, which is unobservable), while an arrival following a newest
timestamp of exactly 0 skips the shift and overwrites that sample. -/
theorem claim5_shift_skip (s : MediaOptState) (now : Int) :
    (s.incomingFrameTimes.getD 0 0 = 0 →
      (updateIncomingFrameRate s now).incomingFrameTimes
        = s.incomingFrameTimes.set 0 now) ∧
    (s.incomingFrameTimes.getD 0 0 ≠ 0 →
      (updateIncomingFrameRate s now).incomingFrameTimes
        = now :: s.incomingFrameTimes.take (kFrameCountHistorySize - 1)) := by
  constructor <;> intro h <;> rw [updateIncomingFrameRate_times] <;> unfold updateTimes
  · rw [if_pos h]
  · rw [if_neg h]

/-- Witness for the amended C5: slot 0 holding 0 is overwritten in place;
slot 0 holding 5 is shifted down. -/
theorem claim5_witness :
    (updateIncomingFrameRate ⟨0, 0, 0, 0, [0, 10]⟩ 33).incomingFrameTimes
      = ([0, 10] : List Int).set 0 33 ∧
    (updateIncomingFrameRate ⟨0, 0, 0, 0, [5, 10]⟩ 33).incomingFrameTimes
      = 33 :: ([5, 10] : List Int).take (kFrameCountHistorySize - 1) :=
  ⟨(claim5_shift_skip ⟨0, 0, 0, 0, [0, 10]⟩ 33).1 (by decide),
   (claim5_shift_skip ⟨0, 0, 0, 0, [5, 10]⟩ 33).2 (by decide)⟩

/-! ### Claim C6 -/

/-- Claim C6: for every controller state and clock value, InputFrameRate()
returns the recomputed frame-rate estimate rounded half-up, saturated at the
maximum representable unsigned 32-bit value, and hence never exceeds that
maximum. -/
theorem claim6_rounding_saturation (s : MediaOptState) (now : Int) :
    inputFrameRateInternal s now
      = min 4294967295
          ((⌊(processIncomingFrameRate s now).incomingFrameRate + 1/2⌋).toNat) ∧
    inputFrameRateInternal s now ≤ 4294967295 := by
  rw [inputFrameRateInternal_eq]
  have hcap : ⌊(4294967295 : ℚ)⌋ = (4294967295 : Int) := by norm_num
  have hfloor : ⌊min ((4294967295 : ℚ))
      ((processIncomingFrameRate s now).incomingFrameRate + 1/2)⌋
      = min (4294967295 : Int)
          ⌊(processIncomingFrameRate s now).incomingFrameRate + 1/2⌋ := by
    rcases le_total ((4294967295 : ℚ))
        ((processIncomingFrameRate s now).incomingFrameRate + 1/2) with h | h
    · rw [min_eq_left h, hcap, min_eq_left]
      rw [← hcap]
      exact Int.floor_le_floor h
    · rw [min_eq_right h, min_eq_right]
      rw [← hcap]
      exact Int.floor_le_floor h
  rw [hfloor]
  omega

/-! ### Claim C7 -/

/-- Claim C7: RecordEncodedFrame(sizeBytes, isDeltaFrame) invokes the
FrameBudgetTracker fill operation if and only if sizeBytes > 0, passing the
size and the delta-frame flag; for sizeBytes = 0 no collaborator call is made;
the controller state never changes and the result is always the OK status. -/
theorem claim7_record_encoded_frame (s : MediaOptState) (img : EncodedImage) :
    (updateWithEncodedData s img).1 = s ∧
    (updateWithEncodedData s img).2.2 = VCM_OK ∧
    (0 < img.length →
      (updateWithEncodedData s img).2.1
        = [DropperCall.fill img.length
            (decide (img.frameType ≠ VideoFrameType.kVideoFrameKey))]) ∧
    (img.length = 0 → (updateWithEncodedData s img).2.1 = []) := by
  unfold updateWithEncodedData
  split_ifs with h
  · exact ⟨rfl, rfl, fun _ => rfl, fun h0 => by omega⟩
  · exact ⟨rfl, rfl, fun hp => absurd hp h, fun _ => rfl⟩

/-- Witness for C7: a 100-byte delta frame emits exactly one fill call; a
zero-byte frame emits none (the spec's Scenario C). -/
theorem claim7_witness :
    (updateWithEncodedData initState ⟨100, VideoFrameType.kVideoFrameDelta⟩).2.1
      = [DropperCall.fill 100
          (decide ((⟨100, VideoFrameType.kVideoFrameDelta⟩ : EncodedImage).frameType
            ≠ VideoFrameType.kVideoFrameKey))] ∧
    (updateWithEncodedData initState ⟨0, VideoFrameType.kVideoFrameDelta⟩).2.1 = [] :=
  ⟨(claim7_record_encoded_frame initState ⟨100, VideoFrameType.kVideoFrameDelta⟩).2.2.1
      (by decide),
   (claim7_record_encoded_frame initState ⟨0, VideoFrameType.kVideoFrameDelta⟩).2.2.2 rfl⟩

/-! ### Claim C8 -/

/-- Counterexample to claim C8: immediately after
SetEncodingData(maxBitrate = 400000, target = 500000, frameRate = 30) from
construction, the stored max is positive yet the stored target exceeds it —
SetEncodingData stores the target without clamping. -/
theorem claim8_counterexample :
    0 < (setEncodingData initState 400000 500000 30).maxBitRate ∧
    (setEncodingData initState 400000 500000 30).maxBitRate
      < ((setEncodingData initState 400000 500000 30).videoTargetBitrate : Int) := by
  decide

/-- Claim C8 as amended: SetTargetRates (re)establishes the invariant — after
any SetTargetRates call, if the stored max is positive then the stored target
is at most the max.  SetEncodingData does not preserve it. -/
theorem claim8_target_le_max (s : MediaOptState) (target : Nat)
    (h : 0 < (setTargetRates s target).2.maxBitRate) :
    ((setTargetRates s target).2.videoTargetBitrate : Int)
      ≤ (setTargetRates s target).2.maxBitRate := by
  have h1 : (setTargetRates s target).2.videoTargetBitrate
      = if 0 < s.maxBitRate ∧ s.maxBitRate < (target : Int)
        then s.maxBitRate.toNat else target := rfl
  have h2 : (setTargetRates s target).2.maxBitRate = s.maxBitRate := rfl
  rw [h1, h2]
  rw [h2] at h
  split_ifs with hc <;> omega

/-- Witness for the amended C8: SetTargetRates(600000) with max 400000 stores
400000 <= 400000. -/
theorem claim8_witness :
    ((setTargetRates ⟨400000, 0, 0, 0, []⟩ 600000).2.videoTargetBitrate : Int)
      ≤ (setTargetRates ⟨400000, 0, 0, 0, []⟩ 600000).2.maxBitRate :=
  claim8_target_le_max ⟨400000, 0, 0, 0, []⟩ 600000 (by decide)

/-! ### Claim C9 -/

/-- Claim C9: Reset() is idempotent — a second Reset yields exactly the same
controller state (configuration zeroed, history cleared to sentinels, estimate
zeroed) — and a subsequent InputFrameRate() returns 0. -/
theorem claim9_reset_idempotent (s : MediaOptState) (now : Int) :
    reset (reset s) = reset s ∧ inputFrameRateInternal (reset s) now = 0 := by
  constructor
  · rfl
  · have hscan : scanCount (reset s).incomingFrameTimes now = 0 := by
      apply scanCount_eq_zero
      left
      show (List.replicate kFrameCountHistorySize (-1) : List Int).getD 1 0 ≤ 0
      decide
    rw [inputFrameRateInternal_eq, processIncomingFrameRate_of_scan_zero _ _ hscan]
    show (⌊min ((4294967295 : ℚ)) ((0 : ℚ) + 1/2)⌋).toNat = 0
    exact toNat_floor_min_eq 0 0 (by norm_num) (by norm_num) (by norm_num)

/-! ### Claim C10 -/

/-- Claim C10: whenever the recompute finds fewer than two usable entries —
the entry after the newest is absent (<= 0) or strictly older than the
2000 ms window — the whole state, in particular the stored estimate, is left
exactly unchanged; no recompute path zeroes the estimate merely because time
passed. -/
theorem claim10_estimate_unchanged (s : MediaOptState) (now : Int)
    (h : s.incomingFrameTimes.getD 1 0 ≤ 0 ∨
         kFrameHistoryWinMs < now - s.incomingFrameTimes.getD 1 0) :
    processIncomingFrameRate s now = s :=
  processIncomingFrameRate_of_scan_zero s now (scanCount_eq_zero _ _ h)

/-- Witness for C10: a state with estimate 7 and a lone arrival in the
history is untouched by a recompute at a later time. -/
theorem claim10_witness :
    processIncomingFrameRate ⟨0, 0, 0, 7, [100, -1]⟩ 105 = ⟨0, 0, 0, 7, [100, -1]⟩ :=
  claim10_estimate_unchanged ⟨0, 0, 0, 7, [100, -1]⟩ 105 (by decide)

end MediaOpt
